import Mathlib

/-
Verification of the conda-basic-auth authentication plugin.

The development shallowly embeds the two source modules, cli.py and
handlers/oauth2.py, as pure Lean functions.  External collaborators
(the OS keyring, the condarc configuration store, the interactive
prompt, the auth-manager store call whose body lives outside the two
modules) are modelled as explicit inputs plus an effect trace: every
call the code would make to one of them is recorded, in order, as an
`Effect` value, so that claims about which external calls happen (and
in which order, and with which arguments) become statements about the
returned trace.
-/

namespace CondaAuth

/-- A conda channel; the only attribute the code reads is its canonical name. -/
structure Channel where
  canonicalName : String
deriving DecidableEq

/-- A Python `dict[str, str | None]` as an ordered association list.
`dict.get` returns `None` both for an absent key and for a key stored
with value `None`; `Settings.get` mirrors this by joining the two. -/
def Settings := List (String × Option String)

instance : DecidableEq Settings := by
  unfold Settings
  infer_instance

/-- `settings.get(k)`: the value at the first entry for `k`, where an
absent key and a stored `None` both give `none` (as in Python). -/
def Settings.get (s : Settings) (k : String) : Option String :=
  match s.find? (fun p => p.1 == k) with
  | some p => p.2
  | none => none

/-- Generic `dict.get` over an association list (first entry wins). -/
def lookupStr {α : Type} (d : List (String × α)) (k : String) : Option α :=
  (d.find? (fun p => p.1 == k)).map (fun p => p.2)

/-- The per-entry rewrite `dictUpdate` applies to the base dict: an entry
whose key also occurs in the overriding dict `o` takes the value from `o`. -/
def dictUpdateValue (o : Settings) (p : String × Option String) : String × Option String :=
  match o.find? (fun q => q.1 == p.1) with
  | some q => (p.1, q.2)
  | none => p

/-- Python `d.update(o)`: keys already in `d` keep their position and take
the value from `o`; keys only in `o` are appended in order. -/
def dictUpdate (d o : Settings) : Settings :=
  d.map (dictUpdateValue o)
  ++ o.filter (fun q => (d.find? (fun p => p.1 == q.1)).isNone)

/-- Python `d[k] = v` on a `dict[str, str]`: overwrite in place if the key
is present, otherwise append the new entry. -/
def dictSet (d : List (String × String)) (k v : String) : List (String × String) :=
  if (d.find? (fun p => p.1 == k)).isSome then
    d.map (fun p => if p.1 == k then (k, v) else p)
  else
    d ++ [(k, v)]

/-- The OS keyring, addressed by `(service, username)` pairs. -/
def Keyring := List ((String × String) × String)

/-- `keyring.get_password(service, username)`. -/
def Keyring.get (kr : Keyring) (service user : String) : Option String :=
  (kr.find? (fun p => p.1.1 == service && p.1.2 == user)).map (fun p => p.2)

/-- `CondaAuthError` from exceptions.py, carrying its user-facing message. -/
structure CondaAuthError where
  message : String
deriving DecidableEq

/-- One call made to an external collaborator, recorded in program order:
keyring reads and deletes, the interactive prompt, the auth manager
store call, and the two condarc (channel-config store) writes. -/
inductive Effect where
  | keyringGet (service user : String)
  | keyringDelete (service user : String)
  | prompt (loginUrl : String)
  | managerStore (authType channelName : String)
  | condarcUpdate (channelName authType : String) (username : Option String)
  | condarcSave
deriving DecidableEq

/-- `True` exactly for the two condarc (channel-config store) write effects. -/
def Effect.isCondarcWrite : Effect → Bool
  | .condarcUpdate _ _ _ => true
  | .condarcSave => true
  | _ => false

/-- `True` exactly for a keyring delete call. -/
def Effect.isKeyringDelete : Effect → Bool
  | .keyringDelete _ _ => true
  | _ => false

/-! ## handlers/oauth2.py -/

/-- Modelled from the spec: the fixed plugin namespace identifier
(`PLUGIN_NAME` in constants.py, which is not under src/); the spec says
the keyring namespace is "a fixed plugin identifier so entries do not
collide with unrelated keychain consumers".  No claim depends on the
exact string. -/
def PLUGIN_NAME : String := "conda-auth"

/-- Modelled from the spec: the logout error prefix (`LOGOUT_ERROR_MESSAGE`
in constants.py, not under src/).  No claim depends on the exact string. -/
def LOGOUT_ERROR_MESSAGE : String := "Unable to remove secret."

/-- `LOGIN_URL_PARAM_NAME` from oauth2.py. -/
def LOGIN_URL_PARAM_NAME : String := "login_url"

/-- `USERNAME` from oauth2.py: the fixed placeholder identity written to
the secret storage backend. -/
def USERNAME : String := "token"

/-- `OAUTH2_NAME` from oauth2.py. -/
def OAUTH2_NAME : String := "oauth2"

/-- `OAuth2Manager.get_keyring_id`. -/
def getKeyringId (channelName : String) : String :=
  PLUGIN_NAME ++ "::" ++ OAUTH2_NAME ++ "::" ++ channelName

/-- The message of the `CondaAuthError` raised by `OAuth2Manager._fetch_secret`
when `login_url` is missing from the channel settings. -/
def missingLoginUrlMessage (channelName : String) : String :=
  "`login_url` is not set for channel \"" ++ channelName ++ "\"; " ++
  "please set this value in `channel_settings` before attempting to use this " ++
  "channel with the " ++ OAUTH2_NAME ++ " auth handler."

/-- `OAuth2Manager._fetch_secret`: require `login_url` first (raising
`CondaAuthError` before touching the keyring when it is absent), then read
the keyring, then fall back to the interactive prompt.  `promptResult`
models the token typed by the user at `prompt_token` for a given login
URL; the prompt call itself is recorded in the trace. -/
def fetchSecret (kr : Keyring) (promptResult : String → String) (channel : Channel)
    (settings : Settings) :
    Except CondaAuthError (String × String) × List Effect :=
  match settings.get LOGIN_URL_PARAM_NAME with
  | none =>
      (Except.error ⟨missingLoginUrlMessage channel.canonicalName⟩, [])
  | some loginUrl =>
      let keyringId := getKeyringId channel.canonicalName
      match Keyring.get kr keyringId USERNAME with
      | some token =>
          (Except.ok (USERNAME, token), [Effect.keyringGet keyringId USERNAME])
      | none =>
          (Except.ok (USERNAME, promptResult loginUrl),
           [Effect.keyringGet keyringId USERNAME, Effect.prompt loginUrl])

/-- `OAuth2Manager.remove_secret`: always calls `keyring.delete_password`;
when the backend reports the entry absent (`PasswordDeleteError`), the
error is re-raised as a `CondaAuthError` prefixed with the logout error
message.  `detail` stands for the backend exception text appended to it. -/
def oauth2RemoveSecret (kr : Keyring) (detail : String) (channel : Channel)
    (_settings : Settings) :
    Except CondaAuthError Unit × List Effect :=
  let keyringId := getKeyringId channel.canonicalName
  if (Keyring.get kr keyringId USERNAME).isSome then
    (Except.ok (), [Effect.keyringDelete keyringId USERNAME])
  else
    (Except.error ⟨LOGOUT_ERROR_MESSAGE ++ " " ++ detail⟩,
     [Effect.keyringDelete keyringId USERNAME])

/-- A prepared outbound HTTP request: a mutable header bag plus the other
fields the authenticator must leave alone. -/
structure Request where
  method : String
  url : String
  body : String
  headers : List (String × String)
deriving DecidableEq

/-- `OAuth2Handler.__call__`: set the `Authorization` header to
`Bearer <token>` and return the (same) request.  `token` is the secret
resolved at construction time. -/
def oauth2HandlerCall (token : String) (req : Request) : Request :=
  { req with headers := dictSet req.headers "Authorization" ("Bearer " ++ token) }

/-! ## cli.py -/

/-- Modelled from the spec: `HTTP_BASIC_AUTH_NAME` (handlers package, not
under src/), the stable discriminator string of the HTTP basic scheme.
The spec's examples write the persisted record as `auth: basic`; the
claims only need it to be a key of the manager mapping distinct from
`oauth2`. -/
def HTTP_BASIC_AUTH_NAME : String := "basic"

/-- Modelled from the spec: `TOKEN_NAME` (handlers package, not under
src/), the stable discriminator string of the token scheme. -/
def TOKEN_NAME : String := "token"

/-- The three auth manager variants.  `oauth2` exists as a manager in
handlers/oauth2.py but is not registered in the CLI mapping. -/
inductive AuthManagerKind where
  | basic
  | token
  | oauth2
deriving DecidableEq

/-- `AUTH_MANAGER_MAPPING` from cli.py: only the basic and token managers
are registered. -/
def AUTH_MANAGER_MAPPING : List (String × AuthManagerKind) :=
  [(HTTP_BASIC_AUTH_NAME, AuthManagerKind.basic), (TOKEN_NAME, AuthManagerKind.token)]

/-- `VALID_AUTH_CHOICES` from cli.py: the keys of the manager mapping. -/
def VALID_AUTH_CHOICES : List String :=
  AUTH_MANAGER_MAPPING.map (fun p => p.1)

/-- `OPTION_DEFAULT` from cli.py: the sentinel a flag carries when given
without a value. -/
def OPTION_DEFAULT : String := "CONDA_AUTH_DEFAULT"

/-- The message of the `CondaAuthError` raised by `get_auth_manager` on an
unknown `auth` value; it names the valid choices. -/
def invalidAuthMessage : String :=
  "Invalid authentication type. Valid types are: \"" ++
  String.intercalate ", " VALID_AUTH_CHOICES ++ "\""

/-- `get_auth_manager` from cli.py.  `optionsUsed` is the process-wide
`option_tracker.options_used` set: the names of the CLI options whose
flag literally appeared on the command line. -/
def getAuthManager (optionsUsed : List String) (options : Settings) :
    Except CondaAuthError (String × AuthManagerKind) :=
  match options.get "auth" with
  | some authType =>
      match lookupStr AUTH_MANAGER_MAPPING authType with
      | none => Except.error ⟨invalidAuthMessage⟩
      | some authManager => Except.ok (authType, authManager)
  | none =>
      if optionsUsed.contains "username" || optionsUsed.contains "password" then
        Except.ok (HTTP_BASIC_AUTH_NAME, AuthManagerKind.basic)
      else if optionsUsed.contains "token" then
        Except.ok (TOKEN_NAME, AuthManagerKind.token)
      else
        Except.ok (HTTP_BASIC_AUTH_NAME, AuthManagerKind.basic)

/-- `get_channel_settings` from cli.py: the first block of
`context.channel_settings` whose `channel` key equals the canonical
channel name. -/
def getChannelSettings (ctxSettings : List Settings) (channel : String) :
    Option Settings :=
  ctxSettings.find? (fun s => s.get "channel" == some channel)

/-- `OptionTracker.track_callback`, value part: the `OPTION_DEFAULT`
sentinel is normalized to `None`; other values pass through. -/
def trackValue (v : Option String) : Option String :=
  if v == some OPTION_DEFAULT then none else v

/-- The settings `login` builds at lines 164-166 of cli.py: drop the CLI
options whose (already normalized) value is `None`, start from the
persisted channel settings (or an empty dict), and overlay the CLI
options with `dict.update`. -/
def loginSettings (ctxSettings : List Settings) (kwargs : List (String × Option String))
    (channelName : String) : Settings :=
  dictUpdate ((getChannelSettings ctxSettings channelName).getD [])
    (kwargs.filter (fun p => p.2.isSome))

/-- The `login` command from cli.py as a pure flow over the inputs it
reads.  `kwargs` are the CLI option values after `track_callback`
normalization; `storeUsername` is whatever identity the external
`auth_manager.store` call returns (its body is outside the two embedded
modules, so the call is recorded as an effect and its result is an
input).  The condarc update and save are recorded as effects. -/
def loginFlow (ctxSettings : List Settings) (optionsUsed : List String)
    (kwargs : List (String × Option String)) (channel : Channel)
    (storeUsername : Option String) :
    Except CondaAuthError Unit × List Effect :=
  let settings := loginSettings ctxSettings kwargs channel.canonicalName
  match getAuthManager optionsUsed settings with
  | Except.error e => (Except.error e, [])
  | Except.ok (authType, _authManager) =>
      let username := if authType == TOKEN_NAME then none else storeUsername
      (Except.ok (),
       [Effect.managerStore authType channel.canonicalName,
        Effect.condarcUpdate channel.canonicalName authType username,
        Effect.condarcSave])

/-- The message of the `CondaAuthError` raised by `logout` when no
channel-settings block matches the channel. -/
def noSessionMessage : String :=
  "Unable to find information about logged in session."

/-- `remove_secret` dispatched over the selected manager.  The oauth2 case
is `OAuth2Manager.remove_secret` from src; the basic and token cases are
modelled from the spec (their modules are not under src/): remove_secret
"deletes the keyring entry for this channel/scheme" under the composite
key `(namespace, scheme, channel_name)` and "fails with a scheme-specific
logout error if the underlying keychain reports the entry does not
exist".  `identity` stands for the keyring username of the entry and
`detail` for the backend exception text; no claim depends on either. -/
def removeSecret (kind : AuthManagerKind) (kr : Keyring) (detail : String)
    (channel : Channel) (settings : Settings) :
    Except CondaAuthError Unit × List Effect :=
  match kind with
  | AuthManagerKind.oauth2 => oauth2RemoveSecret kr detail channel settings
  | AuthManagerKind.basic =>
      let keyringId := PLUGIN_NAME ++ "::" ++ HTTP_BASIC_AUTH_NAME ++ "::" ++ channel.canonicalName
      let identity := (settings.get "username").getD ""
      if (Keyring.get kr keyringId identity).isSome then
        (Except.ok (), [Effect.keyringDelete keyringId identity])
      else
        (Except.error ⟨LOGOUT_ERROR_MESSAGE ++ " " ++ detail⟩,
         [Effect.keyringDelete keyringId identity])
  | AuthManagerKind.token =>
      let keyringId := PLUGIN_NAME ++ "::" ++ TOKEN_NAME ++ "::" ++ channel.canonicalName
      if (Keyring.get kr keyringId USERNAME).isSome then
        (Except.ok (), [Effect.keyringDelete keyringId USERNAME])
      else
        (Except.error ⟨LOGOUT_ERROR_MESSAGE ++ " " ++ detail⟩,
         [Effect.keyringDelete keyringId USERNAME])

/-- The `logout` command from cli.py: look up the channel-settings block,
fail when none exists, otherwise select the manager and remove the
secret.  It never touches the condarc store. -/
def logoutFlow (ctxSettings : List Settings) (optionsUsed : List String)
    (kr : Keyring) (detail : String) (channel : Channel) :
    Except CondaAuthError Unit × List Effect :=
  match getChannelSettings ctxSettings channel.canonicalName with
  | none => (Except.error ⟨noSessionMessage⟩, [])
  | some settings =>
      match getAuthManager optionsUsed settings with
      | Except.error e => (Except.error e, [])
      | Except.ok (_authType, authManager) =>
          removeSecret authManager kr detail channel settings

/-! ## Helper lemmas on the dictionary model -/

/-- `Settings.get` is the join of the raw association-list lookup. -/
theorem Settings.get_eq_join (s : Settings) (k : String) :
    s.get k = (lookupStr s k).join := by
  unfold Settings.get lookupStr
  cases h : s.find? (fun p => p.1 == k) <;> simp [h]

/-- Looking up a key after mapping the values leaves the found value mapped. -/
theorem lookupStr_map_value {α β : Type} (f : α → β) (l : List (String × α)) (k : String) :
    lookupStr (l.map (fun p => (p.1, f p.2))) k = (lookupStr l k).map f := by
  unfold lookupStr
  rw [List.find?_map]
  have hp : ((fun p => p.1 == k) ∘ fun p : String × α => (p.1, f p.2)) =
      (fun p : String × α => p.1 == k) := rfl
  rw [hp]
  cases h : l.find? (fun p => p.1 == k) <;> simp [h]

/-- A key absent from a list is absent from any filtering of it. -/
theorem lookupStr_filter_of_none {α : Type} (pr : String × α → Bool)
    (l : List (String × α)) (k : String) (h : lookupStr l k = none) :
    lookupStr (l.filter pr) k = none := by
  unfold lookupStr at h ⊢
  rw [Option.map_eq_none'] at h ⊢
  rw [List.find?_eq_none] at h ⊢
  intro x hx
  exact h x (List.mem_of_mem_filter hx)

/-- If the first entry for `k` has a `some` value, filtering out the `none`
values preserves the `k` lookup. -/
theorem lookupStr_filter_isSome_of_some {α : Type} (l : List (String × Option α))
    (k : String) (v : α) (h : lookupStr l k = some (some v)) :
    lookupStr (l.filter (fun p => p.2.isSome)) k = some (some v) := by
  induction l with
  | nil => simp [lookupStr] at h
  | cons a t ih =>
      by_cases ha : a.1 = k
      · have hfind : lookupStr (a :: t) k = some a.2 := by
          unfold lookupStr
          rw [List.find?_cons_of_pos _ (by simp [ha])]
          rfl
        rw [hfind] at h
        have hav : a.2 = some v := by exact Option.some.inj h
        have : (a :: t).filter (fun p => p.2.isSome) = a :: t.filter (fun p => p.2.isSome) := by
          rw [List.filter_cons, if_pos (by simp [hav])]
        rw [this]
        unfold lookupStr
        rw [List.find?_cons_of_pos _ (by simp [ha])]
        simp [hav]
      · have hstep : lookupStr (a :: t) k = lookupStr t k := by
          unfold lookupStr
          rw [List.find?_cons_of_neg _ (by simp [ha])]
        rw [hstep] at h
        have hrec := ih h
        rw [List.filter_cons]
        by_cases hk : a.2.isSome
        · rw [if_pos (by simpa using hk)]
          unfold lookupStr
          rw [List.find?_cons_of_neg _ (by simp [ha])]
          exact hrec
        · rw [if_neg (by simpa using hk)]
          exact hrec

/-- If the first (and, by key-uniqueness, only) entry for `k` holds `none`,
filtering out the `none` values removes `k` entirely. -/
theorem lookupStr_filter_isSome_of_none {α : Type} (l : List (String × Option α))
    (k : String) (hnd : (l.map (fun p => p.1)).Nodup)
    (h : lookupStr l k = some none) :
    lookupStr (l.filter (fun p => p.2.isSome)) k = none := by
  induction l with
  | nil => simp [lookupStr] at h
  | cons a t ih =>
      by_cases ha : a.1 = k
      · have hfind : lookupStr (a :: t) k = some a.2 := by
          unfold lookupStr
          rw [List.find?_cons_of_pos _ (by simp [ha])]
          rfl
        rw [hfind] at h
        have hav : a.2 = none := Option.some.inj h
        have hdrop : (a :: t).filter (fun p => p.2.isSome) =
            t.filter (fun p => p.2.isSome) := by
          rw [List.filter_cons, if_neg (by simp [hav])]
        rw [hdrop]
        have hnot : k ∉ t.map (fun p => p.1) := by
          rw [List.map_cons] at hnd
          have := (List.nodup_cons.mp hnd).1
          rwa [ha] at this
        have htnone : lookupStr t k = none := by
          unfold lookupStr
          rw [Option.map_eq_none', List.find?_eq_none]
          intro x hx hxk
          exact hnot (by
            have : x.1 = k := by simpa using hxk
            rw [← this]
            exact List.mem_map_of_mem (fun p => p.1) hx)
        exact lookupStr_filter_of_none _ _ _ htnone
      · have hstep : lookupStr (a :: t) k = lookupStr t k := by
          unfold lookupStr
          rw [List.find?_cons_of_neg _ (by simp [ha])]
        rw [hstep] at h
        have hndt : (t.map (fun p => p.1)).Nodup := by
          rw [List.map_cons] at hnd
          exact (List.nodup_cons.mp hnd).2
        have hrec := ih hndt h
        rw [List.filter_cons]
        by_cases hk : a.2.isSome
        · rw [if_pos (by simpa using hk)]
          unfold lookupStr
          rw [List.find?_cons_of_neg _ (by simp [ha])]
          exact hrec
        · rw [if_neg (by simpa using hk)]
          exact hrec

/-- The value-updating map inside `dictUpdate` preserves keys, so `find?`
on the mapped list is `find?` on the original, mapped. -/
theorem find?_map_keyed {α : Type} (f : String × α → String × α)
    (hf : ∀ p, (f p).1 = p.1) (l : List (String × α)) (k : String) :
    (l.map f).find? (fun p => p.1 == k) = (l.find? (fun p => p.1 == k)).map f := by
  rw [List.find?_map]
  have hp : ((fun p : String × α => p.1 == k) ∘ f) =
      (fun p : String × α => p.1 == k) := by
    funext p
    simp [Function.comp, hf p]
  rw [hp]

/-- A key present in the overriding dict wins in `dictUpdate`. -/
theorem lookupStr_dictUpdate_of_mem (d o : Settings) (k : String) (v : Option String)
    (h : lookupStr o k = some v) :
    lookupStr (dictUpdate d o) k = some v := by
  obtain ⟨q, hq, hq2⟩ : ∃ q, o.find? (fun p => p.1 == k) = some q ∧ q.2 = v := by
    unfold lookupStr at h
    cases hfq : o.find? (fun p => p.1 == k) with
    | none => rw [hfq] at h; simp at h
    | some q => rw [hfq] at h; exact ⟨q, rfl, by simpa using h⟩
  unfold dictUpdate lookupStr
  rw [List.find?_append]
  have hf : ∀ p : String × Option String, (dictUpdateValue o p).1 = p.1 := by
    intro p
    unfold dictUpdateValue
    cases hm : o.find? (fun q => q.1 == p.1) <;> simp [hm]
  rw [find?_map_keyed _ hf]
  cases hd : d.find? (fun p => p.1 == k) with
  | some pd =>
      have hpdk : pd.1 = k := by simpa using List.find?_some hd
      simp only [Option.map_some', Option.or_some]
      have hofind : o.find? (fun q => q.1 == pd.1) = some q := by rw [hpdk]; exact hq
      simp [dictUpdateValue, hofind, hq2]
  | none =>
      simp only [Option.map_none', Option.none_or]
      rw [List.find?_filter]
      have hpred : (fun a : String × Option String =>
          decide (((d.find? (fun p => p.1 == a.1)).isNone = true) ∧ ((a.1 == k) = true))) =
          (fun a : String × Option String => a.1 == k) := by
        funext a
        by_cases hak : a.1 = k
        · rw [hak, hd]
          simp
        · simp [hak]
      rw [hpred, hq]
      simp [hq2]

/-- A key absent from the overriding dict falls through to the base dict
in `dictUpdate`. -/
theorem lookupStr_dictUpdate_of_not_mem (d o : Settings) (k : String)
    (h : lookupStr o k = none) :
    lookupStr (dictUpdate d o) k = lookupStr d k := by
  have hq : o.find? (fun p => p.1 == k) = none := by
    unfold lookupStr at h
    rwa [Option.map_eq_none'] at h
  unfold dictUpdate lookupStr
  rw [List.find?_append]
  have hf : ∀ p : String × Option String, (dictUpdateValue o p).1 = p.1 := by
    intro p
    unfold dictUpdateValue
    cases hm : o.find? (fun q => q.1 == p.1) <;> simp [hm]
  rw [find?_map_keyed _ hf]
  cases hd : d.find? (fun p => p.1 == k) with
  | some pd =>
      have hpdk : pd.1 = k := by simpa using List.find?_some hd
      have hofind : o.find? (fun q => q.1 == pd.1) = none := by rw [hpdk]; exact hq
      simp [dictUpdateValue, hofind]
  | none =>
      simp only [Option.map_none', Option.none_or]
      rw [List.find?_filter]
      have hcomb : o.find? (fun a : String × Option String =>
          decide (((d.find? (fun p => p.1 == a.1)).isNone = true) ∧ ((a.1 == k) = true)))
          = none := by
        rw [List.find?_eq_none] at hq ⊢
        intro x hx hcontra
        have hxk : x.1 = k := by
          have := of_decide_eq_true hcontra
          simpa using this.2
        exact hq x hx (by simp [hxk])
      rw [hcomb]
      simp

/-! ## Claim theorems -/

/-- C1 (counterexample): the claim says OAuth2 secret resolution first
checks the secret store, returning the stored secret if present, and
requires `login_url` only when no secret is stored.  In the code
`_fetch_secret` requires `login_url` first: with a secret stored in the
keyring but no `login_url` in the settings it raises the configuration
error instead of returning the stored secret, and makes no keyring
call at all. -/
theorem C1_counterexample :
    fetchSecret [((getKeyringId "chan", USERNAME), "stored-secret")]
        (fun _ => "typed-token") ⟨"chan"⟩ ([] : Settings) =
      (Except.error ⟨missingLoginUrlMessage "chan"⟩, []) ∧
    Keyring.get [((getKeyringId "chan", USERNAME), "stored-secret")]
        (getKeyringId "chan") USERNAME = some "stored-secret" := by
  constructor
  · rfl
  · rfl

/-- C1 (amended): `_fetch_secret` first requires the `login_url` setting,
failing with the configuration error when it is missing even if a secret
is stored; when `login_url` is present it checks the keyring and returns
the stored secret if one is present, and otherwise prompts the user and
the typed token becomes the secret. -/
theorem C1_theorem (kr : Keyring) (promptResult : String → String) (channel : Channel)
    (settings : Settings) :
    (settings.get LOGIN_URL_PARAM_NAME = none →
      fetchSecret kr promptResult channel settings =
        (Except.error ⟨missingLoginUrlMessage channel.canonicalName⟩, [])) ∧
    (∀ loginUrl, settings.get LOGIN_URL_PARAM_NAME = some loginUrl →
      (∀ t, Keyring.get kr (getKeyringId channel.canonicalName) USERNAME = some t →
        fetchSecret kr promptResult channel settings =
          (Except.ok (USERNAME, t),
           [Effect.keyringGet (getKeyringId channel.canonicalName) USERNAME])) ∧
      (Keyring.get kr (getKeyringId channel.canonicalName) USERNAME = none →
        fetchSecret kr promptResult channel settings =
          (Except.ok (USERNAME, promptResult loginUrl),
           [Effect.keyringGet (getKeyringId channel.canonicalName) USERNAME,
            Effect.prompt loginUrl]))) := by
  refine ⟨fun h => ?_, fun loginUrl hurl => ⟨fun t ht => ?_, fun hnone => ?_⟩⟩
  · simp [fetchSecret, h]
  · simp [fetchSecret, hurl, ht]
  · simp [fetchSecret, hurl, hnone]

/-- C1 (witness): with `login_url` present and an empty keyring, the
prompt runs and the typed token is the secret. -/
theorem C1_witness :
    fetchSecret [] (fun _ => "typed-token") ⟨"chan"⟩
        [("login_url", some "https://example.com/auth")] =
      (Except.ok (USERNAME, "typed-token"),
       [Effect.keyringGet (getKeyringId "chan") USERNAME,
        Effect.prompt "https://example.com/auth"]) :=
  ((C1_theorem [] (fun _ => "typed-token") ⟨"chan"⟩
      [("login_url", some "https://example.com/auth")]).2
    "https://example.com/auth" rfl).2 rfl

/-- C4: when the `login_url` key is absent (or stored as `None`),
`_fetch_secret` fails with the configuration error naming the missing
field, and its effect trace is empty: no keyring read, no prompt, and
nothing is persisted. -/
theorem C4_theorem (kr : Keyring) (promptResult : String → String) (channel : Channel)
    (settings : Settings) (h : settings.get LOGIN_URL_PARAM_NAME = none) :
    fetchSecret kr promptResult channel settings =
      (Except.error ⟨missingLoginUrlMessage channel.canonicalName⟩, []) := by
  simp [fetchSecret, h]

/-- C4 (witness): the failure fires both for settings with no `login_url`
key at all and for settings in which the key is stored with value `None`,
even when the keyring does hold a secret for the channel. -/
theorem C4_witness :
    fetchSecret [((getKeyringId "c", USERNAME), "s")] (fun _ => "t") ⟨"c"⟩
        ([] : Settings) =
      (Except.error ⟨missingLoginUrlMessage "c"⟩, []) ∧
    fetchSecret [((getKeyringId "c", USERNAME), "s")] (fun _ => "t") ⟨"c"⟩
        [("login_url", none)] =
      (Except.error ⟨missingLoginUrlMessage "c"⟩, []) :=
  ⟨C4_theorem _ _ _ _ rfl, C4_theorem _ _ _ _ rfl⟩

/-- C2: `get_auth_manager` resolves by strict precedence: a present
`auth` value decides the scheme via the mapping; else an explicitly
supplied `username` or `password` option gives Basic; else an explicitly
supplied `token` option gives Token; else Basic.  In particular an
explicit `auth = token` wins over an explicitly provided `username`. -/
theorem C2_theorem (used : List String) (s : Settings) :
    (∀ a m, s.get "auth" = some a → lookupStr AUTH_MANAGER_MAPPING a = some m →
      getAuthManager used s = Except.ok (a, m)) ∧
    (s.get "auth" = none →
      (used.contains "username" || used.contains "password") = true →
      getAuthManager used s = Except.ok (HTTP_BASIC_AUTH_NAME, AuthManagerKind.basic)) ∧
    (s.get "auth" = none → used.contains "username" = false →
      used.contains "password" = false → used.contains "token" = true →
      getAuthManager used s = Except.ok (TOKEN_NAME, AuthManagerKind.token)) ∧
    (s.get "auth" = none → used.contains "username" = false →
      used.contains "password" = false → used.contains "token" = false →
      getAuthManager used s = Except.ok (HTTP_BASIC_AUTH_NAME, AuthManagerKind.basic)) ∧
    (s.get "auth" = some TOKEN_NAME → used.contains "username" = true →
      getAuthManager used s = Except.ok (TOKEN_NAME, AuthManagerKind.token)) := by
  refine ⟨fun a m ha hm => ?_, fun ha hu => ?_, fun ha hu hp ht => ?_,
    fun ha hu hp ht => ?_, fun ha _hu => ?_⟩
  · simp [getAuthManager, ha, hm]
  · simp at hu
    simp [getAuthManager, ha, hu]
  · simp at hu hp ht
    simp [getAuthManager, ha, hu, hp, ht]
  · simp at hu hp ht
    simp [getAuthManager, ha, hu, hp, ht]
  · have hm : lookupStr AUTH_MANAGER_MAPPING TOKEN_NAME = some AuthManagerKind.token := by
      rfl
    simp [getAuthManager, ha, hm]

/-- C2 (witness): settings carrying an explicit `auth = token` together
with an explicitly provided `username` option select Token. -/
theorem C2_witness :
    getAuthManager ["username"] [("auth", some TOKEN_NAME), ("username", some "alice")] =
      Except.ok (TOKEN_NAME, AuthManagerKind.token) :=
  ( C2_theorem ["username"]
      [("auth", some TOKEN_NAME), ("username", some "alice")]).2.2.2.2 rfl rfl

/-- C3: on a present but unknown `auth` value, `get_auth_manager` fails
with the invalid-authentication-type error, whose message names the list
of valid choices; `logout` reaching that failure performs no external
call at all (empty effect trace: no keyring or store I/O), and `login`
likewise aborts with an empty trace. -/
theorem C3_theorem (used : List String) (s : Settings) (a : String)
    (h1 : s.get "auth" = some a)
    (h2 : lookupStr AUTH_MANAGER_MAPPING a = none) :
    getAuthManager used s = Except.error ⟨invalidAuthMessage⟩ ∧
    invalidAuthMessage =
      "Invalid authentication type. Valid types are: \"" ++
        String.intercalate ", " VALID_AUTH_CHOICES ++ "\"" ∧
    (∀ ctx kr detail ch, getChannelSettings ctx ch.canonicalName = some s →
      logoutFlow ctx used kr detail ch = (Except.error ⟨invalidAuthMessage⟩, [])) ∧
    (∀ ctx kwargs ch storeUsername,
      loginSettings ctx kwargs ch.canonicalName = s →
      loginFlow ctx used kwargs ch storeUsername =
        (Except.error ⟨invalidAuthMessage⟩, [])) := by
  have hmgr : getAuthManager used s = Except.error ⟨invalidAuthMessage⟩ := by
    simp [getAuthManager, h1, h2]
  refine ⟨hmgr, rfl, fun ctx kr detail ch hctx => ?_, fun ctx kwargs ch storeU hls => ?_⟩
  · simp [logoutFlow, hctx, hmgr]
  · simp [loginFlow, hls, hmgr]

/-- C3 (witness): `auth = saml` is unknown; the selector fails with the
message naming the valid choices and logout makes no external call. -/
theorem C3_witness :
    getAuthManager [] [("channel", some "c"), ("auth", some "saml")] =
      Except.error ⟨invalidAuthMessage⟩ ∧
    logoutFlow [[("channel", some "c"), ("auth", some "saml")]] [] [] "gone" ⟨"c"⟩ =
      (Except.error ⟨invalidAuthMessage⟩, []) := by
  have h := C3_theorem [] [("channel", some "c"), ("auth", some "saml")] "saml" rfl rfl
  exact ⟨h.1, h.2.2.1 [[("channel", some "c"), ("auth", some "saml")]] [] "gone" ⟨"c"⟩ rfl⟩

/-- C10: the CLI manager mapping registers only the basic and token
schemes, so a settings map whose `auth` value is `oauth2` makes
`get_auth_manager` fail with the invalid-authentication-type error even
though an OAuth2 manager exists. -/
theorem C10_theorem (used : List String) (s : Settings)
    (h : s.get "auth" = some OAUTH2_NAME) :
    getAuthManager used s = Except.error ⟨invalidAuthMessage⟩ ∧
    VALID_AUTH_CHOICES = [HTTP_BASIC_AUTH_NAME, TOKEN_NAME] ∧
    lookupStr AUTH_MANAGER_MAPPING OAUTH2_NAME = none := by
  have h2 : lookupStr AUTH_MANAGER_MAPPING OAUTH2_NAME = none := by rfl
  exact ⟨by simp [getAuthManager, h, h2], rfl, h2⟩

/-- C10 (witness): `auth = oauth2` is rejected by the selector. -/
theorem C10_witness :
    getAuthManager [] [("auth", some OAUTH2_NAME)] =
      Except.error ⟨invalidAuthMessage⟩ :=
  (C10_theorem [] [("auth", some OAUTH2_NAME)] rfl).1

/-- C5: every external call `logout` makes is a keyring delete — in
particular it never writes to the condarc configuration store, so the
persisted channel-config record (auth scheme and username) is left
unchanged and the previously recorded scheme remains resolvable from
the unchanged channel settings afterwards. -/
theorem C5_theorem (ctx : List Settings) (used : List String) (kr : Keyring)
    (detail : String) (ch : Channel) :
    ((logoutFlow ctx used kr detail ch).2.all (fun e => e.isKeyringDelete)) = true ∧
    ((logoutFlow ctx used kr detail ch).2.all (fun e => !e.isCondarcWrite)) = true := by
  unfold logoutFlow
  cases hcs : getChannelSettings ctx ch.canonicalName with
  | none => simp
  | some settings =>
      cases ham : getAuthManager used settings with
      | error e => simp [ham]
      | ok pair =>
          obtain ⟨authType, kind⟩ := pair
          simp only [ham]
          cases kind <;>
            simp only [removeSecret, oauth2RemoveSecret] <;>
            split <;>
            simp [Effect.isKeyringDelete, Effect.isCondarcWrite]

/-- C6: when no channel-settings block matches the channel (no prior
login recorded), `logout` fails with the no-session error and its effect
trace is empty — in particular no keyring delete call is performed. -/
theorem C6_theorem (ctx : List Settings) (used : List String) (kr : Keyring)
    (detail : String) (ch : Channel)
    (h : getChannelSettings ctx ch.canonicalName = none) :
    logoutFlow ctx used kr detail ch = (Except.error ⟨noSessionMessage⟩, []) := by
  simp [logoutFlow, h]

/-- C6 (witness): logging out of a channel with no recorded settings
fails with the no-session error and performs no keyring delete. -/
theorem C6_witness :
    logoutFlow [[("channel", some "other")]] [] [] "gone" ⟨"private-chan"⟩ =
      (Except.error ⟨noSessionMessage⟩, []) :=
  C6_theorem [[("channel", some "other")]] [] [] "gone" ⟨"private-chan"⟩ rfl

/-- C7: whenever a successful `login` records a condarc update whose auth
type is the token scheme, the username it persists is `None`, regardless
of the identity the manager store call returned. -/
theorem C7_theorem (ctx : List Settings) (used : List String)
    (kwargs : List (String × Option String)) (ch : Channel)
    (storeUsername : Option String) (c a : String) (u : Option String)
    (hmem : Effect.condarcUpdate c a u ∈ (loginFlow ctx used kwargs ch storeUsername).2)
    (ha : a = TOKEN_NAME) : u = none := by
  unfold loginFlow at hmem
  cases ham : getAuthManager used (loginSettings ctx kwargs ch.canonicalName) with
  | error e => simp only [ham] at hmem; simp at hmem
  | ok pair =>
      obtain ⟨authType, kind⟩ := pair
      simp only [ham] at hmem
      simp only [List.mem_cons, List.not_mem_nil, or_false] at hmem
      rcases hmem with h1 | h2 | h3
      · exact absurd h1 (by simp)
      · have hinj := Effect.condarcUpdate.inj h2
        obtain ⟨_, haty, hu⟩ := hinj
        subst ha
        rw [← haty] at hu
        simpa using hu
      · exact absurd h3 (by simp)

/-- C7 (witness): a token login with a store call returning the identity
`alice` still records the condarc update with no username. -/
theorem C7_witness :
    Effect.condarcUpdate "c" TOKEN_NAME none ∈
      (loginFlow [] ["token"] [("token", some "secret")] ⟨"c"⟩ (some "alice")).2 ∧
    (none : Option String) = none := by
  constructor
  · decide
  · exact C7_theorem [] ["token"] [("token", some "secret")] ⟨"c"⟩ (some "alice")
      "c" TOKEN_NAME none (by decide) rfl

/-- Dict assignment stores the assigned value under the assigned key. -/
theorem lookupStr_dictSet_self (d : List (String × String)) (k v : String) :
    lookupStr (dictSet d k v) k = some v := by
  unfold dictSet
  split
  · rename_i hpresent
    unfold lookupStr
    induction d with
    | nil => simp at hpresent
    | cons a t ih =>
        by_cases hak : a.1 = k
        · rw [List.map_cons, if_pos (by simp [hak])]
          rw [List.find?_cons_of_pos _ (by simp)]
          rfl
        · rw [List.map_cons, if_neg (by simp [hak])]
          rw [List.find?_cons_of_neg _ (by simp [hak])]
          refine ih ?_
          rw [List.find?_cons_of_neg _ (by simp [hak])] at hpresent
          exact hpresent
  · rename_i habsent
    unfold lookupStr
    rw [List.find?_append]
    have hnone : d.find? (fun p => p.1 == k) = none := by
      cases hf : d.find? (fun p => p.1 == k) with
      | none => rfl
      | some p => rw [hf] at habsent; simp at habsent
    rw [hnone]
    simp

/-- Dict assignment leaves every other key unchanged. -/
theorem lookupStr_dictSet_other (d : List (String × String)) (k v k' : String)
    (hk : k' ≠ k) : lookupStr (dictSet d k v) k' = lookupStr d k' := by
  unfold dictSet
  split
  · rename_i hpresent
    clear hpresent
    unfold lookupStr
    induction d with
    | nil => simp
    | cons a t ih =>
        by_cases hak : a.1 = k
        · rw [List.map_cons, if_pos (by simp [hak])]
          rw [List.find?_cons_of_neg _ (by simp [Ne.symm hk])]
          rw [List.find?_cons_of_neg _ (by simp [hak, Ne.symm hk])]
          exact ih
        · rw [List.map_cons, if_neg (by simp [hak])]
          by_cases hak' : a.1 = k'
          · rw [List.find?_cons_of_pos _ (by simp [hak'])]
            rw [List.find?_cons_of_pos _ (by simp [hak'])]
          · rw [List.find?_cons_of_neg _ (by simp [hak'])]
            rw [List.find?_cons_of_neg _ (by simp [hak'])]
            exact ih
  · unfold lookupStr
    rw [List.find?_append]
    cases hf : d.find? (fun p => p.1 == k') with
    | some p => simp
    | none =>
        rw [List.find?_cons_of_neg _ (by simp [Ne.symm hk])]
        simp

/-- C9: the only effect of invoking the OAuth2 authenticator on a request
is setting its `Authorization` header to `Bearer` followed by the
resolved secret, overwriting any existing value; every other header and
every other field of the request is unchanged, and the result is the
input request with only that header changed. -/
theorem C9_theorem (token : String) (req : Request) :
    lookupStr (oauth2HandlerCall token req).headers "Authorization" =
      some ("Bearer " ++ token) ∧
    (∀ k, k ≠ "Authorization" →
      lookupStr (oauth2HandlerCall token req).headers k = lookupStr req.headers k) ∧
    (oauth2HandlerCall token req).method = req.method ∧
    (oauth2HandlerCall token req).url = req.url ∧
    (oauth2HandlerCall token req).body = req.body ∧
    oauth2HandlerCall token req =
      { req with headers := dictSet req.headers "Authorization" ("Bearer " ++ token) } := by
  refine ⟨?_, fun k hk => ?_, rfl, rfl, rfl, rfl⟩
  · exact lookupStr_dictSet_self req.headers "Authorization" ("Bearer " ++ token)
  · exact lookupStr_dictSet_other req.headers "Authorization" ("Bearer " ++ token) k hk

/-- C9 (witness): on a concrete request that already carries an
`Authorization` header and an `Accept` header, the call overwrites the
former with the bearer secret and leaves the latter as it was. -/
theorem C9_witness :
    lookupStr (oauth2HandlerCall "tok"
      ⟨"GET", "https://example.com", "", [("Authorization", "old"), ("Accept", "*")]⟩).headers
      "Authorization" = some ("Bearer " ++ "tok") ∧
    lookupStr (oauth2HandlerCall "tok"
      ⟨"GET", "https://example.com", "", [("Authorization", "old"), ("Accept", "*")]⟩).headers
      "Accept" =
      lookupStr [("Authorization", "old"), ("Accept", "*")] "Accept" :=
  ⟨( C9_theorem "tok"
      ⟨"GET", "https://example.com", "", [("Authorization", "old"), ("Accept", "*")]⟩).1,
   ( C9_theorem "tok"
      ⟨"GET", "https://example.com", "", [("Authorization", "old"), ("Accept", "*")]⟩).2.1
     "Accept" (by decide)⟩

/-- C8: the settings map `login` builds (and passes to the selector and
manager) merges the persisted channel settings with the CLI options,
CLI values winning on collisions, and a CLI option that was not given,
was given with no stored value, or carried the sentinel (which
`track_callback` normalizes to `None`) is excluded from the merge, so
the persisted value (or absence) shows through for its key. -/
theorem C8_theorem (ctx : List Settings) (raw : List (String × Option String))
    (channelName : String) (k : String)
    (hnd : (raw.map (fun p => p.1)).Nodup) :
    ((lookupStr raw k = none ∨ lookupStr raw k = some none ∨
        lookupStr raw k = some (some OPTION_DEFAULT)) →
      (loginSettings ctx (raw.map (fun p => (p.1, trackValue p.2))) channelName).get k =
        (((getChannelSettings ctx channelName).getD []) : Settings).get k) ∧
    (∀ v, lookupStr raw k = some (some v) → v ≠ OPTION_DEFAULT →
      (loginSettings ctx (raw.map (fun p => (p.1, trackValue p.2))) channelName).get k =
        some v) := by
  have hmap : lookupStr (raw.map (fun p => (p.1, trackValue p.2))) k =
      (lookupStr raw k).map trackValue := lookupStr_map_value trackValue raw k
  have hndk : ((raw.map (fun p => (p.1, trackValue p.2))).map (fun p => p.1)).Nodup := by
    rw [List.map_map]
    exact hnd
  constructor
  · intro hdisj
    have hok : lookupStr ((raw.map (fun p => (p.1, trackValue p.2))).filter
        (fun p => p.2.isSome)) k = none := by
      rcases hdisj with h0 | h0 | h0
      · exact lookupStr_filter_of_none _ _ _ (by rw [hmap, h0]; rfl)
      · refine lookupStr_filter_isSome_of_none _ _ hndk ?_
        rw [hmap, h0]
        rfl
      · refine lookupStr_filter_isSome_of_none _ _ hndk ?_
        rw [hmap, h0]
        simp [trackValue]
    unfold loginSettings
    rw [Settings.get_eq_join, Settings.get_eq_join,
      lookupStr_dictUpdate_of_not_mem _ _ _ hok]
  · intro v hv hvd
    have htv : trackValue (some v) = some v := by
      simp [trackValue, hvd]
    have hsome : lookupStr ((raw.map (fun p => (p.1, trackValue p.2))).filter
        (fun p => p.2.isSome)) k = some (some v) := by
      refine lookupStr_filter_isSome_of_some _ _ _ ?_
      rw [hmap, hv]
      simp [htv]
    unfold loginSettings
    rw [Settings.get_eq_join, lookupStr_dictUpdate_of_mem _ _ _ _ hsome]
    rfl

/-- C8 (witness): with a persisted block for channel `c` holding
`username = bob` and `login_url = u`, and CLI options
`username = alice`, `password` absent, `token` carrying the sentinel,
the merged settings hold `alice` (CLI wins) while `login_url` shows the
persisted value and `token` is excluded. -/
theorem C8_witness :
    (loginSettings [[("channel", some "c"), ("login_url", some "u"), ("username", some "bob")]]
      ([("username", some "alice"), ("password", (none : Option String)),
        ("token", some OPTION_DEFAULT)].map (fun p => (p.1, trackValue p.2))) "c").get
      "username" = some "alice" ∧
    (loginSettings [[("channel", some "c"), ("login_url", some "u"), ("username", some "bob")]]
      ([("username", some "alice"), ("password", (none : Option String)),
        ("token", some OPTION_DEFAULT)].map (fun p => (p.1, trackValue p.2))) "c").get
      "token" =
      (((getChannelSettings
          [[("channel", some "c"), ("login_url", some "u"), ("username", some "bob")]]
          "c").getD []) : Settings).get "token" ∧
    (loginSettings [[("channel", some "c"), ("login_url", some "u"), ("username", some "bob")]]
      ([("username", some "alice"), ("password", (none : Option String)),
        ("token", some OPTION_DEFAULT)].map (fun p => (p.1, trackValue p.2))) "c").get
      "login_url" =
      (((getChannelSettings
          [[("channel", some "c"), ("login_url", some "u"), ("username", some "bob")]]
          "c").getD []) : Settings).get "login_url" :=
  ⟨(C8_theorem [[("channel", some "c"), ("login_url", some "u"), ("username", some "bob")]]
      [("username", some "alice"), ("password", none), ("token", some OPTION_DEFAULT)]
      "c" "username" (by decide)).2 "alice" (by decide) (by decide),
   (C8_theorem [[("channel", some "c"), ("login_url", some "u"), ("username", some "bob")]]
      [("username", some "alice"), ("password", none), ("token", some OPTION_DEFAULT)]
      "c" "token" (by decide)).1 (Or.inr (Or.inr (by decide))),
   (C8_theorem [[("channel", some "c"), ("login_url", some "u"), ("username", some "bob")]]
      [("username", some "alice"), ("password", none), ("token", some OPTION_DEFAULT)]
      "c" "login_url" (by decide)).1 (Or.inl (by decide))⟩

end CondaAuth
